import Mathlib

/-!
Shallow embedding of `commpy/channelcoding/ldpc.py`: the Tanner-graph
construction `get_ldpc_code_params` and the belief-propagation decoder
`ldpc_bp_decode`.

Modelling choices, mirroring the source line by line:
* Floating-point LLR arithmetic is modelled over `ℚ`, which is exact for
  runs in which every float stays finite; the non-finite regime (the
  `0.0/0.0 = NaN` reachable in the check-node update, and the `ValueError`
  raised when a non-finite posterior is stored into the `int`-dtype
  `out_llrs`) is modelled separately by the `FV` mirror of the decoder
  further below.
* `np.tanh` and `np.arctanh` are kept abstract as a pair of unconstrained
  function parameters (`NumFuns`); every claim under study holds for all
  such pairs (or fails already for a concrete pair).
* The flattened message arrays (`vnode_msgs`, `cnode_msgs`) and the output
  arrays are modelled as total functions from the flat index, updated
  pointwise exactly where the source assigns.
* `out_llrs` is allocated with dtype `int` in the source
  (`np.zeros(n_vnodes, int)`); the numpy float→int cast truncates toward
  zero, modelled by `itrunc`.
* `get_ldpc_code_params` is modelled over an already-tokenized description
  (the textual splitting of the design file is out of scope); Python/numpy
  failures (tuple unpacking, shape mismatches on slice assignment, fancy
  indexing out of bounds, non-singleton boolean-mask assignment) are
  modelled as `Except.error`, and Python's silent negative-index
  wrap-around is modelled faithfully by `pyRow`.
-/

/-- The numeric primitives `np.tanh` / `np.arctanh` used by the check-node
update, kept abstract. -/
structure NumFuns where
  tanh : ℚ → ℚ
  atanh : ℚ → ℚ

/-- The decoder-relevant fields of the `ldpc_code_params` dictionary.  The
four index arrays are the flattened row-major arrays of the source
(`cnode_adj_list_1d` etc.), modelled as total functions from the flat
index; live slots of valid graphs hold non-negative indices, so they are
`Nat`-valued here. -/
structure LdpcGraph where
  n_vnodes : Nat
  n_cnodes : Nat
  max_vnode_deg : Nat
  max_cnode_deg : Nat
  vnode_deg : Nat → Nat
  cnode_deg : Nat → Nat
  vnode_adj : Nat → Nat
  cnode_adj : Nat → Nat
  vnode_cnode_map : Nat → Nat
  cnode_vnode_map : Nat → Nat

/-- The per-call mutable state of `ldpc_bp_decode`. -/
structure DecState where
  vnode_msgs : Nat → ℚ
  cnode_msgs : Nat → ℚ
  dec_word : Nat → Int
  out_llrs : Nat → Int

def MAX_POS_LLR : ℚ := 38
def MIN_NEG_LLR : ℚ := -38

/-- `_limit_llr`: `out_llr = in_llr`; `if in_llr > MAX_POS_LLR: out_llr =
MAX_POS_LLR`; `if in_llr < MIN_NEG_LLR: out_llr = MIN_NEG_LLR`. -/
def limit_llr (in_llr : ℚ) : ℚ :=
  let o1 := if MAX_POS_LLR < in_llr then MAX_POS_LLR else in_llr
  if in_llr < MIN_NEG_LLR then MIN_NEG_LLR else o1

/-- numpy's float→int cast (assignment into an `int`-dtype array)
truncates toward zero; `Int.div` is exactly truncation toward zero. -/
def itrunc (q : ℚ) : Int := Int.tdiv q.num (q.den : Int)

/-- Pointwise array store `a[k] = x`. -/
def upd {α : Type} (f : Nat → α) (k : Nat) (x : α) : Nat → α :=
  fun idx => if idx = k then x else f idx

/-- A sequence of stores `a[k] = val k` for `k` in `ks` (the written value
depends only on the index, matching the source loops). -/
def writeAll {α : Type} (f : Nat → α) (ks : List Nat) (val : Nat → α) : Nat → α :=
  ks.foldl (fun g k => upd g k (val k)) f

/-- Slice store `a[start : start+len] = x`. -/
def setSlice (f : Nat → ℚ) (start len : Nat) (x : ℚ) : Nat → ℚ :=
  fun idx => if start ≤ idx ∧ idx < start + len then x else f idx

/-- Initialization loop: `vnode_msgs[start_idx : start_idx+offset] =
llr_vec[vnode_idx]` for each variable node (note: no clipping). -/
def initVnodeMsgs (g : LdpcGraph) (llr : Nat → ℚ) : Nat → ℚ :=
  (List.range g.n_vnodes).foldl
    (fun f v => setSlice f (v * g.max_vnode_deg) (g.vnode_deg v) (llr v))
    (fun _ => 0)

/-- The incoming variable-node message read by check node `c` on its edge
`i`:
`vnode_msgs[vnode*max_vnode_deg + cnode_vnode_map[cnode_idx*max_cnode_deg + i]]`
with `vnode = cnode_adj_list[cnode_idx*max_cnode_deg + i]`. -/
def vmsgIn (g : LdpcGraph) (vmsgs : Nat → ℚ) (c i : Nat) : ℚ :=
  vmsgs (g.cnode_adj (c * g.max_cnode_deg + i) * g.max_vnode_deg +
    g.cnode_vnode_map (c * g.max_cnode_deg + i))

/-- `msg_prod`: running product of `np.tanh(msg/2.0)` over all of `c`'s
edges. -/
def msgProd (F : NumFuns) (g : LdpcGraph) (vmsgs : Nat → ℚ) (c : Nat) : ℚ :=
  (List.range (g.cnode_deg c)).foldl
    (fun a j => a * F.tanh (vmsgIn g vmsgs c j / 2)) 1

/-- `c_msg = 2.0*np.arctanh(msg_prod/np.tanh(.../2.0))`. -/
def cMsg (F : NumFuns) (g : LdpcGraph) (vmsgs : Nat → ℚ) (c i : Nat) : ℚ :=
  2 * F.atanh (msgProd F g vmsgs c / F.tanh (vmsgIn g vmsgs c i / 2))

/-- One check node's inner update loop: write `c_msg` to
`cnode_msgs[cnode_idx*max_cnode_deg + i]` for each live edge `i`. -/
def cnodeStep (F : NumFuns) (g : LdpcGraph) (vmsgs : Nat → ℚ)
    (cm : Nat → ℚ) (c : Nat) : Nat → ℚ :=
  writeAll cm ((List.range (g.cnode_deg c)).map (fun i => c * g.max_cnode_deg + i))
    (fun idx => cMsg F g vmsgs c (idx - c * g.max_cnode_deg))

/-- Phase A, the check-node update loop over all check nodes.  It reads
only `vnode_msgs` (never the partially updated `cnode_msgs`). -/
def cnodePhase (F : NumFuns) (g : LdpcGraph) (vmsgs cmsgs : Nat → ℚ) : Nat → ℚ :=
  (List.range g.n_cnodes).foldl (cnodeStep F g vmsgs) cmsgs

/-- The incoming check-node message read by variable node `v` on edge `i`:
`cnode_msgs[cnode*max_cnode_deg + vnode_cnode_map[vnode_idx*max_vnode_deg + i]]`
with `cnode = vnode_adj_list[vnode_idx*max_vnode_deg + i]`. -/
def cnodeMsgIn (g : LdpcGraph) (cmsgs : Nat → ℚ) (v i : Nat) : ℚ :=
  cmsgs (g.vnode_adj (v * g.max_vnode_deg + i) * g.max_cnode_deg +
    g.vnode_cnode_map (v * g.max_vnode_deg + i))

/-- `msg_sum`: sum of all incoming check-node messages at variable node
`v`. -/
def msgSum (g : LdpcGraph) (cmsgs : Nat → ℚ) (v : Nat) : ℚ :=
  (List.range (g.vnode_deg v)).foldl (fun a i => a + cnodeMsgIn g cmsgs v i) 0

/-- `v_msg = _limit_llr(llr_vec[vnode_idx] + msg_sum - cnode_msgs[...])`. -/
def vMsg (g : LdpcGraph) (llr : Nat → ℚ) (cmsgs : Nat → ℚ) (v i : Nat) : ℚ :=
  limit_llr (llr v + msgSum g cmsgs v - cnodeMsgIn g cmsgs v i)

/-- The exact (rational) posterior `llr_vec[vnode_idx] + msg_sum`, before
the source truncates it into the `int`-dtype `out_llrs` array. -/
def postLlr (g : LdpcGraph) (llr : Nat → ℚ) (cmsgs : Nat → ℚ) (v : Nat) : ℚ :=
  llr v + msgSum g cmsgs v

/-- One variable node's update: write the clipped extrinsic messages, then
`out_llrs[vnode_idx] = llr_vec[vnode_idx] + msg_sum` (truncated by the
`int` dtype) and the hard decision `dec_word[vnode_idx]` from the stored
(truncated) value. -/
def vnodeStep (g : LdpcGraph) (llr : Nat → ℚ) (s : DecState) (v : Nat) : DecState :=
  let o : Int := itrunc (postLlr g llr s.cnode_msgs v)
  { vnode_msgs :=
      writeAll s.vnode_msgs
        ((List.range (g.vnode_deg v)).map (fun i => v * g.max_vnode_deg + i))
        (fun idx => vMsg g llr s.cnode_msgs v (idx - v * g.max_vnode_deg)),
    cnode_msgs := s.cnode_msgs,
    dec_word := upd s.dec_word v (if 0 < o then 0 else 1),
    out_llrs := upd s.out_llrs v o }

/-- Phase B, the variable-node update loop over all variable nodes. -/
def vnodePhase (g : LdpcGraph) (llr : Nat → ℚ) (s : DecState) : DecState :=
  (List.range g.n_vnodes).foldl (vnodeStep g llr) s

/-- Python `^` on the 0/1 values held by `dec_word`. -/
def xorI (a b : Int) : Int := if a = b then 0 else 1

/-- `p_sum`: XOR of the hard-decision bits of `c`'s connected variable
nodes, `p_sum ^= dec_word[cnode_adj_list[cnode_idx*max_cnode_deg + i]]`. -/
def cnodeParity (g : LdpcGraph) (dw : Nat → Int) (c : Nat) : Int :=
  (List.range (g.cnode_deg c)).foldl
    (fun a i => xorI a (dw (g.cnode_adj (c * g.max_cnode_deg + i)))) 0

/-- Phase C: `continue_flag` stays `0` iff every check node's parity is
`0` (the source breaks out of the scan at the first violated check, which
is what `List.all`'s short-circuit also does). -/
def allParityOk (g : LdpcGraph) (dw : Nat → Int) : Bool :=
  (List.range g.n_cnodes).all (fun c => cnodeParity g dw c == 0)

/-- One iteration of the main loop: Phase A then Phase B. -/
def iterStep (F : NumFuns) (g : LdpcGraph) (llr : Nat → ℚ) (s : DecState) : DecState :=
  vnodePhase g llr { s with cnode_msgs := cnodePhase F g s.vnode_msgs s.cnode_msgs }

/-- The main loop `for iter_cnt in xrange(n_iters)` with the early break
when `continue_flag == 0`; returns the final state together with the
number of iterations actually executed. -/
def bpLoop (F : NumFuns) (g : LdpcGraph) (llr : Nat → ℚ) :
    Nat → DecState → DecState × Nat
  | 0, s => (s, 0)
  | k + 1, s =>
    let s1 := iterStep F g llr s
    if allParityOk g s1.dec_word then (s1, 1)
    else
      let r := bpLoop F g llr k s1
      (r.1, r.2 + 1)

/-- The state right before the main loop: zeroed `dec_word`, `out_llrs`
and `cnode_msgs`; `vnode_msgs` initialized from the channel LLRs. -/
def initState (g : LdpcGraph) (llr : Nat → ℚ) : DecState :=
  { vnode_msgs := initVnodeMsgs g llr,
    cnode_msgs := fun _ => 0,
    dec_word := fun _ => 0,
    out_llrs := fun _ => 0 }

/-- `ldpc_bp_decode`: returns `(dec_word, out_llrs)` as length-`n_vnodes`
arrays.  `n_iters` is an arbitrary Python integer; `xrange` of a
non-positive argument is empty, hence `Int.toNat`.  Both returned arrays
have dtype `int`. -/
def ldpc_bp_decode (F : NumFuns) (g : LdpcGraph) (llr : Nat → ℚ)
    (n_iters : Int) : List Int × List Int :=
  let r := bpLoop F g llr n_iters.toNat (initState g llr)
  ((List.range g.n_vnodes).map r.1.dec_word,
   (List.range g.n_vnodes).map r.1.out_llrs)

/-- Number of iterations the main loop executes. -/
def decodeIters (F : NumFuns) (g : LdpcGraph) (llr : Nat → ℚ) (n_iters : Int) : Nat :=
  (bpLoop F g llr n_iters.toNat (initState g llr)).2

/-! ## The graph construction `get_ldpc_code_params` -/

/-- The LDPC design file, already tokenized: the two header lines, the two
degree lines, and the per-node adjacency lines (integers as written in the
file, i.e. 1-based node indices). -/
structure LdpcDesc where
  line1 : List Int
  line2 : List Int
  degLine1 : List Int
  degLine2 : List Int
  vrows : List (List Int)
  crows : List (List Int)

/-- The `ldpc_code_params` dictionary built by `get_ldpc_code_params`
(the `_1d` flattened arrays and the degree lists). -/
structure LdpcCodeParams where
  n_vnodes : Int
  n_cnodes : Int
  max_vnode_deg : Int
  max_cnode_deg : Int
  cnode_adj_list : List Int
  cnode_vnode_map : List Int
  vnode_adj_list : List Int
  vnode_cnode_map : List Int
  cnode_deg_list : List Int
  vnode_deg_list : List Int

/-- `[a, b] = [int(x) for x in line.split(' ')]`: raises unless the line
has exactly two tokens. -/
def parsePair (l : List Int) : Except String (Int × Int) :=
  match l with
  | [a, b] => Except.ok (a, b)
  | _ => Except.error "ValueError: unpack"

/-- Length of the Python slice `row[0:deg]` of a row of length `maxDeg`
(negative stops count from the end; out-of-range stops clamp). -/
def sliceLen (maxDeg : Nat) (deg : Int) : Nat :=
  (min (if deg < 0 then (maxDeg : Int) + deg else deg) (maxDeg : Int)).toNat

/-- One adjacency row fill:
`adj[idx, 0:deg] = np.array([int(x)-1 for x in line.split('\t')])`.
The slice assignment succeeds iff the right-hand side has the slice's
length (or length 1, which numpy broadcasts); unfilled slots keep the
`-1` sentinel from `-np.ones`. -/
def buildRow (maxDeg : Nat) (deg : Int) (tokens : List Int) : Except String (List Int) :=
  let len := sliceLen maxDeg deg
  let vals := tokens.map (fun x => x - 1)
  if vals.length = len then
    Except.ok (vals ++ List.replicate (maxDeg - len) (-1))
  else if vals.length = 1 then
    Except.ok (List.replicate len (tokens.headD 0 - 1) ++ List.replicate (maxDeg - len) (-1))
  else
    Except.error "ValueError: could not broadcast"

/-- The row-fill loop over all `n` nodes: reading past the degree list is
an `IndexError`, reading past the end of the file makes `int('')` raise. -/
def buildAdjRows (n maxDeg : Nat) (degs : List Int) (rows : List (List Int)) :
    Except String (List (List Int)) :=
  (List.range n).mapM (fun idx =>
    match degs.get? idx with
    | none => Except.error "IndexError: degree list"
    | some deg =>
      match rows.get? idx with
      | none => Except.error "ValueError: ran out of lines"
      | some tokens => buildRow maxDeg deg tokens)

/-- The positions at which a full adjacency row equals `x`: the `True`
positions of the numpy boolean mask `row == x`. -/
def maskMatches (row : List Int) (x : Int) : List Nat :=
  (List.range row.length).filter (fun j => row.getD j 0 == x)

/-- Python row lookup `rows[v]` with a possibly negative index: indices in
`[-len, 0)` silently wrap around to the end; anything else raises. -/
def pyRow (rows : List (List Int)) (v : Int) : Except String (List Int) :=
  if 0 ≤ v then
    match rows.get? v.toNat with
    | some r => Except.ok r
    | none => Except.error "IndexError: row"
  else if v.natAbs ≤ rows.length then
    match rows.get? (rows.length - v.natAbs) with
    | some r => Except.ok r
    | none => Except.error "IndexError: row"
  else Except.error "IndexError: row"

/-- `pyRow` on the success path (used by the cross-map entry model). -/
def pyRowD (rows : List (List Int)) (v : Int) : List Int :=
  match pyRow rows v with
  | Except.ok r => r
  | Except.error _ => []

/-- One cross-reference entry, e.g.
`cnode_vnode_map[cnode, i] = cnode_list[vnode_adj_list[vnode, :] == cnode]`:
fancy indexing `arange(bound)[mask]` raises if a `True` position is out of
bounds, and the scalar assignment raises unless exactly one position
matched. -/
def crossEntry (partnerRows : List (List Int)) (bound : Nat) (target : Int)
    (e : Int) : Except String Int := do
  let row ← pyRow partnerRows e
  let ms := maskMatches row target
  if ms.all (fun j => decide (j < bound)) then
    match ms with
    | [j] => Except.ok (j : Int)
    | _ => Except.error "ValueError: cannot assign"
  else Except.error "IndexError: boolean mask"

/-- One row of a cross-reference map: iterate over the live slice
`adj[c, 0:deg]` of node `c`'s own row; unused slots keep `-1`. -/
def crossMapRow (partnerRows : List (List Int)) (bound : Nat) (maxDeg : Nat)
    (degs : List Int) (rows : List (List Int)) (c : Nat) : Except String (List Int) := do
  let row := rows.getD c []
  let deg := degs.getD c 0
  let live := row.take (sliceLen maxDeg deg)
  let entries ← live.mapM (fun e => crossEntry partnerRows bound (c : Int) e)
  Except.ok (entries ++ List.replicate (maxDeg - live.length) (-1))

/-- The dense parity matrix loop `pmat[cnode_idx, cnode_adj_list[cnode_idx, :]] = 1`
(the matrix itself is discarded — it is not stored in the returned
dictionary — but the fancy column indexing still raises for indices
outside `[-n_vnodes, n_vnodes)`, while negative in-range indices wrap
silently). -/
def pmatCheck (nv nc : Nat) (cadjRows : List (List Int)) : Except String Unit :=
  if (List.range nc).all (fun c =>
      (cadjRows.getD c []).all (fun e => decide (-(nv : Int) ≤ e) && decide (e < (nv : Int)))) then
    Except.ok ()
  else Except.error "IndexError: pmat column"

/-- `get_ldpc_code_params`, over the tokenized design description. -/
def get_ldpc_code_params (d : LdpcDesc) : Except String LdpcCodeParams := do
  let (n_vnodes, n_cnodes) ← parsePair d.line1
  let (max_vnode_deg, max_cnode_deg) ← parsePair d.line2
  -- the degree lines are read with `split(' ')[:-1]` (trailing separator)
  let vdegs := d.degLine1.dropLast
  let cdegs := d.degLine2.dropLast
  -- `-np.ones([n, m], int)` raises on negative dimensions
  if n_vnodes < 0 ∨ n_cnodes < 0 ∨ max_vnode_deg < 0 ∨ max_cnode_deg < 0 then
    Except.error "ValueError: negative dimension"
  else do
    let nv := n_vnodes.toNat
    let nc := n_cnodes.toNat
    let maxVd := max_vnode_deg.toNat
    let maxCd := max_cnode_deg.toNat
    let vadj ← buildAdjRows nv maxVd vdegs d.vrows
    let cadj ← buildAdjRows nc maxCd cdegs d.crows
    let cvm ← (List.range nc).mapM (crossMapRow vadj nc maxCd cdegs cadj)
    let vcm ← (List.range nv).mapM (crossMapRow cadj nv maxVd vdegs vadj)
    pmatCheck nv nc cadj
    Except.ok
      { n_vnodes := n_vnodes, n_cnodes := n_cnodes,
        max_vnode_deg := max_vnode_deg, max_cnode_deg := max_cnode_deg,
        cnode_adj_list := cadj.flatten, cnode_vnode_map := cvm.flatten,
        vnode_adj_list := vadj.flatten, vnode_cnode_map := vcm.flatten,
        cnode_deg_list := cdegs, vnode_deg_list := vdegs }

/-- A well-formed description in the sense of the specification: correct
token counts everywhere, every degree within the declared maximum, every
node index within range (1-based in the file). -/
def wellFormedDesc (d : LdpcDesc) : Bool :=
  match d.line1, d.line2 with
  | [nv, nc], [mvd, mcd] =>
    let vdegs := d.degLine1.dropLast
    let cdegs := d.degLine2.dropLast
    decide (0 ≤ nv) && decide (0 ≤ nc) && decide (0 ≤ mvd) && decide (0 ≤ mcd) &&
    decide (vdegs.length = nv.toNat) && decide (cdegs.length = nc.toNat) &&
    decide (d.vrows.length = nv.toNat) && decide (d.crows.length = nc.toNat) &&
    vdegs.all (fun dg => decide (0 ≤ dg) && decide (dg ≤ mvd)) &&
    cdegs.all (fun dg => decide (0 ≤ dg) && decide (dg ≤ mcd)) &&
    (List.range nv.toNat).all (fun v =>
      decide ((d.vrows.getD v []).length = (vdegs.getD v 0).toNat) &&
      (d.vrows.getD v []).all (fun e => decide (1 ≤ e) && decide (e ≤ nc))) &&
    (List.range nc.toNat).all (fun c =>
      decide ((d.crows.getD c []).length = (cdegs.getD c 0).toNat) &&
      (d.crows.getD c []).all (fun e => decide (1 ≤ e) && decide (e ≤ nv)))
  | _, _ => false

/-- Whether construction returned a graph (rather than raising). -/
def isOkB (e : Except String LdpcCodeParams) : Bool :=
  match e with
  | Except.ok _ => true
  | Except.error _ => false

/-- The value `vnode_cnode_map[vnode, i]` computed on the success path of
`vnode_cnode_map[vnode, i] = vnode_list[cnode_adj_list[cnode, :] == vnode]`
with `cnode = vnode_adj_list[vnode][i]` (the partner row is fetched with
Python's wrapping row lookup). -/
def vnode_cnode_map_entry (cadj vadj : List (List Int)) (v i : Nat) : Nat :=
  (maskMatches (pyRowD cadj ((vadj.getD v []).getD i (-1))) ((v : Int))).headD 0

/-- Symmetrically, `cnode_vnode_map[cnode, j]` on the success path. -/
def cnode_vnode_map_entry (vadj cadj : List (List Int)) (c j : Nat) : Nat :=
  (maskMatches (pyRowD vadj ((cadj.getD c []).getD j (-1))) ((c : Int))).headD 0

/-! ## Concrete instances used by the witnesses and counterexamples -/

/-- A concrete choice for the abstract `tanh`/`atanh` pair. -/
def Fid : NumFuns := { tanh := fun x => x, atanh := fun x => x }

/-- Two variable nodes of degree 1, one check node of degree 2. -/
def G1 : LdpcGraph :=
  { n_vnodes := 2, n_cnodes := 1, max_vnode_deg := 1, max_cnode_deg := 2,
    vnode_deg := fun _ => 1, cnode_deg := fun _ => 2,
    vnode_adj := fun _ => 0, cnode_adj := fun idx => idx,
    vnode_cnode_map := fun idx => idx, cnode_vnode_map := fun _ => 0 }

/-- One variable node of degree 1, no check nodes. -/
def G2 : LdpcGraph :=
  { n_vnodes := 1, n_cnodes := 0, max_vnode_deg := 1, max_cnode_deg := 1,
    vnode_deg := fun _ => 1, cnode_deg := fun _ => 0,
    vnode_adj := fun _ => 0, cnode_adj := fun _ => 0,
    vnode_cnode_map := fun _ => 0, cnode_vnode_map := fun _ => 0 }

/-- One variable node of degree 0, no check nodes. -/
def G5 : LdpcGraph :=
  { n_vnodes := 1, n_cnodes := 0, max_vnode_deg := 1, max_cnode_deg := 1,
    vnode_deg := fun _ => 0, cnode_deg := fun _ => 0,
    vnode_adj := fun _ => 0, cnode_adj := fun _ => 0,
    vnode_cnode_map := fun _ => 0, cnode_vnode_map := fun _ => 0 }

/-- A malformed description: check node 1's line contains the node index
`0`, out of the file's 1-based range `[1, n_vnodes]`.  (2 variable nodes,
1 check node; the degree lines carry a trailing token that `[:-1]`
drops.) -/
def d0 : LdpcDesc :=
  { line1 := [2, 1], line2 := [1, 3],
    degLine1 := [1, 1, 0], degLine2 := [3, 0],
    vrows := [[1], [1]], crows := [[1, 2, 0]] }

/-- The graph `get_ldpc_code_params` silently returns for `d0`: the file
index `0` became the sentinel value `-1` in `cnode_adj_list`, and the
cross-map search for that slot read the *last* variable-node row (Python
wrap-around), yielding the bogus entry `cnode_vnode_map[0][2] = 0`. -/
def P0 : LdpcCodeParams :=
  { n_vnodes := 2, n_cnodes := 1, max_vnode_deg := 1, max_cnode_deg := 3,
    cnode_adj_list := [0, 1, -1], cnode_vnode_map := [0, 0, 0],
    vnode_adj_list := [0, 0], vnode_cnode_map := [0, 1],
    cnode_deg_list := [3], vnode_deg_list := [1, 1] }

/-! ## The non-finite (IEEE-float) regime

The `ℚ`-valued model above is exact for runs in which every float stays
finite.  The source, however, can produce non-finite values: line 166
divides by `np.tanh(msg/2.0)`, which is `0.0` when the incoming message is
`0.0`, so `0.0/0.0 = NaN` (numpy warns, does not raise), and storing that
NaN posterior into the `int`-dtype `out_llrs` at line 187 raises
`ValueError`.  The following mirror of the decoder over `FV` models IEEE
semantics for the operations the source uses — `NaN`/`±inf` propagation
through `+`, `-`, `*`, `/`, the comparisons (incomparable `NaN`),
`np.tanh` (`±inf ↦ ±1`, `NaN ↦ NaN`), `np.arctanh` (`±1 ↦ ±inf`, outside
`[-1,1]` and non-finite `↦ NaN`) — and the only raising operation on the
decode path, the float→int store (signed zeros, rounding and overflow are
not modelled; none arises in the runs evaluated here). -/

/-- A numpy float64 as the source uses it: a finite value (kept exact as a
rational), `+inf`, `-inf`, or `NaN`. -/
inductive FV : Type where
  | fin (q : ℚ)
  | pinf
  | ninf
  | nan
deriving DecidableEq

/-- IEEE addition. -/
def fadd : FV → FV → FV
  | FV.nan, _ => FV.nan
  | _, FV.nan => FV.nan
  | FV.pinf, FV.ninf => FV.nan
  | FV.ninf, FV.pinf => FV.nan
  | FV.pinf, _ => FV.pinf
  | _, FV.pinf => FV.pinf
  | FV.ninf, _ => FV.ninf
  | _, FV.ninf => FV.ninf
  | FV.fin a, FV.fin b => FV.fin (a + b)

/-- IEEE subtraction. -/
def fsub : FV → FV → FV
  | FV.nan, _ => FV.nan
  | _, FV.nan => FV.nan
  | FV.pinf, FV.pinf => FV.nan
  | FV.ninf, FV.ninf => FV.nan
  | FV.pinf, _ => FV.pinf
  | FV.ninf, _ => FV.ninf
  | FV.fin _, FV.pinf => FV.ninf
  | FV.fin _, FV.ninf => FV.pinf
  | FV.fin a, FV.fin b => FV.fin (a - b)

/-- IEEE multiplication (`inf * 0 = NaN`). -/
def fmul : FV → FV → FV
  | FV.nan, _ => FV.nan
  | _, FV.nan => FV.nan
  | FV.fin a, FV.fin b => FV.fin (a * b)
  | FV.pinf, FV.pinf => FV.pinf
  | FV.pinf, FV.ninf => FV.ninf
  | FV.ninf, FV.pinf => FV.ninf
  | FV.ninf, FV.ninf => FV.pinf
  | FV.pinf, FV.fin b => if 0 < b then FV.pinf else if b < 0 then FV.ninf else FV.nan
  | FV.fin a, FV.pinf => if 0 < a then FV.pinf else if a < 0 then FV.ninf else FV.nan
  | FV.ninf, FV.fin b => if 0 < b then FV.ninf else if b < 0 then FV.pinf else FV.nan
  | FV.fin a, FV.ninf => if 0 < a then FV.ninf else if a < 0 then FV.pinf else FV.nan

/-- IEEE division: `0.0/0.0 = NaN` (with a numpy warning, not an error),
`x/0.0 = ±inf` for finite `x ≠ 0`, `inf/inf = NaN`, `finite/inf = 0`. -/
def fdiv : FV → FV → FV
  | FV.nan, _ => FV.nan
  | _, FV.nan => FV.nan
  | FV.fin a, FV.fin b =>
    if b = 0 then (if a = 0 then FV.nan else if 0 < a then FV.pinf else FV.ninf)
    else FV.fin (a / b)
  | FV.fin _, _ => FV.fin 0
  | FV.pinf, FV.pinf => FV.nan
  | FV.pinf, FV.ninf => FV.nan
  | FV.ninf, FV.pinf => FV.nan
  | FV.ninf, FV.ninf => FV.nan
  | FV.pinf, FV.fin b => if b < 0 then FV.ninf else FV.pinf
  | FV.ninf, FV.fin b => if b < 0 then FV.pinf else FV.ninf

/-- The Python comparison `a < b`: `NaN` compares false with everything. -/
def flt : FV → FV → Bool
  | FV.nan, _ => false
  | _, FV.nan => false
  | FV.fin a, FV.fin b => decide (a < b)
  | FV.ninf, FV.ninf => false
  | FV.pinf, FV.pinf => false
  | FV.ninf, _ => true
  | _, FV.pinf => true
  | FV.pinf, _ => false
  | _, FV.ninf => false

/-- `np.tanh` on non-finite inputs: `tanh(±inf) = ±1`, `tanh(NaN) = NaN`;
finite inputs use the abstract `tanh`. -/
def ftanh (F : NumFuns) : FV → FV
  | FV.fin q => FV.fin (F.tanh q)
  | FV.pinf => FV.fin 1
  | FV.ninf => FV.fin (-1)
  | FV.nan => FV.nan

/-- `np.arctanh`: `arctanh(±1) = ±inf` and `arctanh` outside `[-1, 1]` is
`NaN` (both with warnings only); non-finite inputs give `NaN`; finite
inputs strictly inside `(-1, 1)` use the abstract `atanh`. -/
def fatanh (F : NumFuns) : FV → FV
  | FV.fin q =>
    if q = 1 then FV.pinf
    else if q = -1 then FV.ninf
    else if 1 < q ∨ q < -1 then FV.nan
    else FV.fin (F.atanh q)
  | _ => FV.nan

/-- `_limit_llr` over floats: with a `NaN` input both comparisons are
false and the `NaN` passes through unchanged; `+inf` clips to `38.0` and
`-inf` to `-38.0`. -/
def flimit_llr (in_llr : FV) : FV :=
  let o1 := if flt (FV.fin MAX_POS_LLR) in_llr then FV.fin MAX_POS_LLR else in_llr
  if flt in_llr (FV.fin MIN_NEG_LLR) then FV.fin MIN_NEG_LLR else o1

/-- The store into an `int`-dtype numpy array: finite floats truncate
toward zero, `NaN` and `±inf` raise `ValueError`. -/
def fstoreInt (x : FV) : Except String Int :=
  match x with
  | FV.fin q => Except.ok (itrunc q)
  | FV.nan => Except.error "ValueError: cannot convert float NaN to integer"
  | _ => Except.error "ValueError: cannot convert float infinity to integer"

/-- The decode state over floats. -/
structure FDecState where
  vnode_msgs : Nat → FV
  cnode_msgs : Nat → FV
  dec_word : Nat → Int
  out_llrs : Nat → Int

/-- Slice store over floats. -/
def fsetSlice (f : Nat → FV) (start len : Nat) (x : FV) : Nat → FV :=
  fun idx => if start ≤ idx ∧ idx < start + len then x else f idx

/-- The initialization loop over floats (stores into the float-dtype
`vnode_msgs`, which never raises). -/
def finitVnodeMsgs (g : LdpcGraph) (llr : Nat → FV) : Nat → FV :=
  (List.range g.n_vnodes).foldl
    (fun f v => fsetSlice f (v * g.max_vnode_deg) (g.vnode_deg v) (llr v))
    (fun _ => FV.fin 0)

/-- `vmsgIn` over floats (same index plumbing). -/
def fvmsgIn (g : LdpcGraph) (vmsgs : Nat → FV) (c i : Nat) : FV :=
  vmsgs (g.cnode_adj (c * g.max_cnode_deg + i) * g.max_vnode_deg +
    g.cnode_vnode_map (c * g.max_cnode_deg + i))

/-- `msg_prod` over floats. -/
def fmsgProd (F : NumFuns) (g : LdpcGraph) (vmsgs : Nat → FV) (c : Nat) : FV :=
  (List.range (g.cnode_deg c)).foldl
    (fun a j => fmul a (ftanh F (fdiv (fvmsgIn g vmsgs c j) (FV.fin 2)))) (FV.fin 1)

/-- `c_msg` over floats: the division produces `NaN` when the excluded
edge's `tanh` is `0.0` and the product is `0.0` too. -/
def fcMsg (F : NumFuns) (g : LdpcGraph) (vmsgs : Nat → FV) (c i : Nat) : FV :=
  fmul (FV.fin 2)
    (fatanh F (fdiv (fmsgProd F g vmsgs c)
      (ftanh F (fdiv (fvmsgIn g vmsgs c i) (FV.fin 2)))))

/-- One check node's update over floats (stores into the float-dtype
`cnode_msgs`: no raise, non-finite values are stored silently). -/
def fcnodeStep (F : NumFuns) (g : LdpcGraph) (vmsgs : Nat → FV)
    (cm : Nat → FV) (c : Nat) : Nat → FV :=
  writeAll cm ((List.range (g.cnode_deg c)).map (fun i => c * g.max_cnode_deg + i))
    (fun idx => fcMsg F g vmsgs c (idx - c * g.max_cnode_deg))

/-- Phase A over floats. -/
def fcnodePhase (F : NumFuns) (g : LdpcGraph) (vmsgs cmsgs : Nat → FV) : Nat → FV :=
  (List.range g.n_cnodes).foldl (fcnodeStep F g vmsgs) cmsgs

/-- `cnodeMsgIn` over floats. -/
def fcnodeMsgIn (g : LdpcGraph) (cmsgs : Nat → FV) (v i : Nat) : FV :=
  cmsgs (g.vnode_adj (v * g.max_vnode_deg + i) * g.max_cnode_deg +
    g.vnode_cnode_map (v * g.max_vnode_deg + i))

/-- `msg_sum` over floats: one `NaN` incoming message poisons the sum. -/
def fmsgSum (g : LdpcGraph) (cmsgs : Nat → FV) (v : Nat) : FV :=
  (List.range (g.vnode_deg v)).foldl
    (fun a i => fadd a (fcnodeMsgIn g cmsgs v i)) (FV.fin 0)

/-- `v_msg` over floats. -/
def fvMsg (g : LdpcGraph) (llr : Nat → FV) (cmsgs : Nat → FV) (v i : Nat) : FV :=
  flimit_llr (fsub (fadd (llr v) (fmsgSum g cmsgs v)) (fcnodeMsgIn g cmsgs v i))

/-- The posterior `llr_vec[vnode_idx] + msg_sum` over floats. -/
def fpostLlr (g : LdpcGraph) (llr : Nat → FV) (cmsgs : Nat → FV) (v : Nat) : FV :=
  fadd (llr v) (fmsgSum g cmsgs v)

/-- One variable node's update over floats: the writes into the
float-dtype `vnode_msgs` never raise, but the store
`out_llrs[vnode_idx] = llr_vec[vnode_idx] + msg_sum` into the `int`-dtype
array raises `ValueError` on a non-finite posterior, aborting the call. -/
def fvnodeStep (g : LdpcGraph) (llr : Nat → FV) (s : FDecState) (v : Nat) :
    Except String FDecState :=
  let vm := writeAll s.vnode_msgs
    ((List.range (g.vnode_deg v)).map (fun i => v * g.max_vnode_deg + i))
    (fun idx => fvMsg g llr s.cnode_msgs v (idx - v * g.max_vnode_deg))
  match fstoreInt (fpostLlr g llr s.cnode_msgs v) with
  | Except.ok o =>
    Except.ok { vnode_msgs := vm, cnode_msgs := s.cnode_msgs,
                dec_word := upd s.dec_word v (if 0 < o then 0 else 1),
                out_llrs := upd s.out_llrs v o }
  | Except.error e => Except.error e

/-- Phase B over floats, aborting at the first raising store. -/
def fvnodePhase (g : LdpcGraph) (llr : Nat → FV) (s : FDecState) :
    Except String FDecState :=
  (List.range g.n_vnodes).foldlM (fvnodeStep g llr) s

/-- One iteration over floats. -/
def fiterStep (F : NumFuns) (g : LdpcGraph) (llr : Nat → FV) (s : FDecState) :
    Except String FDecState :=
  fvnodePhase g llr { s with cnode_msgs := fcnodePhase F g s.vnode_msgs s.cnode_msgs }

/-- The main loop over floats (Phase C works on the `int`-valued
`dec_word`, so `allParityOk` is reused unchanged). -/
def fbpLoop (F : NumFuns) (g : LdpcGraph) (llr : Nat → FV) :
    Nat → FDecState → Except String (FDecState × Nat)
  | 0, s => Except.ok (s, 0)
  | k + 1, s =>
    match fiterStep F g llr s with
    | Except.error e => Except.error e
    | Except.ok s1 =>
      if allParityOk g s1.dec_word then Except.ok (s1, 1)
      else
        match fbpLoop F g llr k s1 with
        | Except.error e => Except.error e
        | Except.ok r => Except.ok (r.1, r.2 + 1)

/-- The pre-loop state over floats. -/
def finitState (g : LdpcGraph) (llr : Nat → FV) : FDecState :=
  { vnode_msgs := finitVnodeMsgs g llr,
    cnode_msgs := fun _ => FV.fin 0,
    dec_word := fun _ => 0,
    out_llrs := fun _ => 0 }

/-- `ldpc_bp_decode` over floats: either the returned pair or the
propagated Python exception. -/
def ldpc_bp_decode_fv (F : NumFuns) (g : LdpcGraph) (llr : Nat → FV)
    (n_iters : Int) : Except String (List Int × List Int) :=
  match fbpLoop F g llr n_iters.toNat (finitState g llr) with
  | Except.error e => Except.error e
  | Except.ok r =>
    Except.ok ((List.range g.n_vnodes).map r.1.dec_word,
               (List.range g.n_vnodes).map r.1.out_llrs)

/-- Whether a decode call raised. -/
def fIsError {α : Type} (e : Except String α) : Bool :=
  match e with
  | Except.error _ => true
  | Except.ok _ => false

/-- The raised exception's message (empty for a normal return). -/
def errMsg {α : Type} (e : Except String α) : String :=
  match e with
  | Except.error s => s
  | Except.ok _ => ""

/-! ## Helper lemmas -/

theorem upd_self {α : Type} (f : Nat → α) (k : Nat) (x : α) : upd f k x k = x := by
  simp [upd]

theorem upd_other {α : Type} (f : Nat → α) (k : Nat) (x : α) (k' : Nat) (h : k' ≠ k) :
    upd f k x k' = f k' := by
  simp [upd, h]

theorem writeAll_not_mem {α : Type} :
    ∀ (ks : List Nat) (f : Nat → α) (val : Nat → α) (k : Nat),
      k ∉ ks → writeAll f ks val k = f k := by
  intro ks
  induction ks with
  | nil => intro f val k _; rfl
  | cons a t ih =>
    intro f val k h
    have hka : k ≠ a := fun e => h (e ▸ List.mem_cons_self a t)
    have hkt : k ∉ t := fun m => h (List.mem_cons_of_mem a m)
    show writeAll (upd f a (val a)) t val k = f k
    rw [ih _ _ _ hkt]
    exact upd_other f a (val a) k hka

theorem writeAll_mem {α : Type} :
    ∀ (ks : List Nat) (f : Nat → α) (val : Nat → α) (k : Nat),
      k ∈ ks → writeAll f ks val k = val k := by
  intro ks
  induction ks with
  | nil => intro f val k h; exact absurd h (List.not_mem_nil k)
  | cons a t ih =>
    intro f val k h
    by_cases hkt : k ∈ t
    · exact ih _ _ _ hkt
    · have hka : k = a := by
        rcases List.mem_cons.mp h with h1 | h2
        · exact h1
        · exact absurd h2 hkt
      show writeAll (upd f a (val a)) t val k = val k
      rw [writeAll_not_mem t _ _ k hkt, hka]
      exact upd_self f a (val a)

/-- Distinct nodes write to disjoint blocks of the flattened arrays, as
long as every degree is at most the stride. -/
theorem slot_eq (m c i c' i' : Nat) (hi : i < m) (hi' : i' < m)
    (h : c * m + i = c' * m + i') : c = c' ∧ i = i' := by
  have hm : 0 < m := Nat.lt_of_le_of_lt (Nat.zero_le i) hi
  have e1 : (c * m + i) / m = c := by
    rw [Nat.mul_comm, Nat.mul_add_div hm, Nat.div_eq_of_lt hi, Nat.add_zero]
  have e2 : (c' * m + i') / m = c' := by
    rw [Nat.mul_comm, Nat.mul_add_div hm, Nat.div_eq_of_lt hi', Nat.add_zero]
  have hc : c = c' := by rw [← e1, ← e2, h]
  subst hc
  exact ⟨rfl, by omega⟩

theorem cnodeFold_not_touched (F : NumFuns) (g : LdpcGraph) (vmsgs : Nat → ℚ) :
    ∀ (cs : List Nat) (cm : Nat → ℚ) (k : Nat),
      (∀ c ∈ cs, ∀ i < g.cnode_deg c, k ≠ c * g.max_cnode_deg + i) →
      cs.foldl (cnodeStep F g vmsgs) cm k = cm k := by
  intro cs
  induction cs with
  | nil => intro cm k _; rfl
  | cons a t ih =>
    intro cm k h
    show t.foldl (cnodeStep F g vmsgs) (cnodeStep F g vmsgs cm a) k = cm k
    rw [ih _ _ (fun c hc => h c (List.mem_cons_of_mem a hc))]
    apply writeAll_not_mem
    intro hk
    rcases List.mem_map.mp hk with ⟨i, hi, hik⟩
    exact h a (List.mem_cons_self a t) i (List.mem_range.mp hi) hik.symm

theorem cnodeFold_lookup (F : NumFuns) (g : LdpcGraph) (vmsgs : Nat → ℚ) :
    ∀ (cs : List Nat) (cm : Nat → ℚ) (c i : Nat),
      c ∈ cs → i < g.cnode_deg c →
      (∀ c' ∈ cs, g.cnode_deg c' ≤ g.max_cnode_deg) →
      cs.foldl (cnodeStep F g vmsgs) cm (c * g.max_cnode_deg + i) =
        cMsg F g vmsgs c i := by
  intro cs
  induction cs with
  | nil => intro cm c i h _ _; exact absurd h (List.not_mem_nil c)
  | cons a t ih =>
    intro cm c i hc hi hdeg
    by_cases hct : c ∈ t
    · exact ih _ c i hct hi (fun c' hc' => hdeg c' (List.mem_cons_of_mem a hc'))
    · have hca : c = a := by
        rcases List.mem_cons.mp hc with h1 | h2
        · exact h1
        · exact absurd h2 hct
      subst hca
      have him : i < g.max_cnode_deg :=
        Nat.lt_of_lt_of_le hi (hdeg c (List.mem_cons_self c t))
      show t.foldl (cnodeStep F g vmsgs) (cnodeStep F g vmsgs cm c)
            (c * g.max_cnode_deg + i) = cMsg F g vmsgs c i
      rw [cnodeFold_not_touched F g vmsgs t _ _ ?_]
      · show writeAll cm _ _ (c * g.max_cnode_deg + i) = cMsg F g vmsgs c i
        rw [writeAll_mem]
        · rw [Nat.add_sub_cancel_left]
        · exact List.mem_map.mpr ⟨i, List.mem_range.mpr hi, rfl⟩
      · intro c' hc' i' hi' hkey
        have hi'm : i' < g.max_cnode_deg :=
          Nat.lt_of_lt_of_le hi' (hdeg c' (List.mem_cons_of_mem c hc'))
        rcases slot_eq g.max_cnode_deg c i c' i' him hi'm hkey with ⟨hcc, _⟩
        exact hct (hcc ▸ hc')

theorem vnodeFold_cmsgs (g : LdpcGraph) (llr : Nat → ℚ) :
    ∀ (vs : List Nat) (s : DecState),
      (vs.foldl (vnodeStep g llr) s).cnode_msgs = s.cnode_msgs := by
  intro vs
  induction vs with
  | nil => intro s; rfl
  | cons a t ih => intro s; exact ih (vnodeStep g llr s a)

theorem vnodeFold_msgs_not_touched (g : LdpcGraph) (llr : Nat → ℚ) :
    ∀ (vs : List Nat) (s : DecState) (k : Nat),
      (∀ v ∈ vs, ∀ i < g.vnode_deg v, k ≠ v * g.max_vnode_deg + i) →
      (vs.foldl (vnodeStep g llr) s).vnode_msgs k = s.vnode_msgs k := by
  intro vs
  induction vs with
  | nil => intro s k _; rfl
  | cons a t ih =>
    intro s k h
    show (t.foldl (vnodeStep g llr) (vnodeStep g llr s a)).vnode_msgs k = s.vnode_msgs k
    rw [ih _ _ (fun v hv => h v (List.mem_cons_of_mem a hv))]
    apply writeAll_not_mem
    intro hk
    rcases List.mem_map.mp hk with ⟨i, hi, hik⟩
    exact h a (List.mem_cons_self a t) i (List.mem_range.mp hi) hik.symm

theorem vnodeFold_msgs_lookup (g : LdpcGraph) (llr : Nat → ℚ) :
    ∀ (vs : List Nat) (s : DecState) (v i : Nat),
      v ∈ vs → i < g.vnode_deg v →
      (∀ v' ∈ vs, g.vnode_deg v' ≤ g.max_vnode_deg) →
      (vs.foldl (vnodeStep g llr) s).vnode_msgs (v * g.max_vnode_deg + i) =
        vMsg g llr s.cnode_msgs v i := by
  intro vs
  induction vs with
  | nil => intro s v i h _ _; exact absurd h (List.not_mem_nil v)
  | cons a t ih =>
    intro s v i hv hi hdeg
    by_cases hvt : v ∈ t
    · show (t.foldl (vnodeStep g llr) (vnodeStep g llr s a)).vnode_msgs
          (v * g.max_vnode_deg + i) = vMsg g llr s.cnode_msgs v i
      exact ih (vnodeStep g llr s a) v i hvt hi
        (fun v' hv' => hdeg v' (List.mem_cons_of_mem a hv'))
    · have hva : v = a := by
        rcases List.mem_cons.mp hv with h1 | h2
        · exact h1
        · exact absurd h2 hvt
      subst hva
      have him : i < g.max_vnode_deg :=
        Nat.lt_of_lt_of_le hi (hdeg v (List.mem_cons_self v t))
      show (t.foldl (vnodeStep g llr) (vnodeStep g llr s v)).vnode_msgs
            (v * g.max_vnode_deg + i) = vMsg g llr s.cnode_msgs v i
      rw [vnodeFold_msgs_not_touched g llr t _ _ ?_]
      · show writeAll s.vnode_msgs _ _ (v * g.max_vnode_deg + i) =
          vMsg g llr s.cnode_msgs v i
        rw [writeAll_mem]
        · rw [Nat.add_sub_cancel_left]
        · exact List.mem_map.mpr ⟨i, List.mem_range.mpr hi, rfl⟩
      · intro v' hv' i' hi' hkey
        have hi'm : i' < g.max_vnode_deg :=
          Nat.lt_of_lt_of_le hi' (hdeg v' (List.mem_cons_of_mem v hv'))
        rcases slot_eq g.max_vnode_deg v i v' i' him hi'm hkey with ⟨hvv, _⟩
        exact hvt (hvv ▸ hv')

theorem limit_llr_bounds (x : ℚ) :
    MIN_NEG_LLR ≤ limit_llr x ∧ limit_llr x ≤ MAX_POS_LLR := by
  unfold limit_llr MIN_NEG_LLR MAX_POS_LLR
  by_cases h1 : x < (-38 : ℚ)
  · simp only [MIN_NEG_LLR, if_pos h1]
    norm_num
  · simp only [if_neg h1]
    by_cases h2 : (38 : ℚ) < x
    · simp only [if_pos h2]
      norm_num
    · simp only [if_neg h2]
      constructor <;> [linarith [not_lt.mp h1]; linarith [not_lt.mp h2]]

theorem msgProd_eq_prod (F : NumFuns) (g : LdpcGraph) (vmsgs : Nat → ℚ) (c : Nat) :
    msgProd F g vmsgs c =
      ((List.range (g.cnode_deg c)).map (fun j => F.tanh (vmsgIn g vmsgs c j / 2))).prod := by
  rw [List.prod_eq_foldl, List.foldl_map]
  rfl

theorem bpLoop_iters_le (F : NumFuns) (g : LdpcGraph) (llr : Nat → ℚ) :
    ∀ (n : Nat) (s : DecState), (bpLoop F g llr n s).2 ≤ n := by
  intro n
  induction n with
  | zero => intro s; exact Nat.le_refl 0
  | succ k ih =>
    intro s
    show (bpLoop F g llr (k + 1) s).2 ≤ k + 1
    rw [bpLoop]
    by_cases h : allParityOk g (iterStep F g llr s).dec_word
    · simp only [if_pos h]
      omega
    · simp only [if_neg h]
      have := ih (iterStep F g llr s)
      omega

theorem map_const_zero : ∀ (l : List Nat), l.map (fun _ => (0 : Int)) = List.replicate l.length 0 := by
  intro l
  induction l with
  | nil => rfl
  | cons a t ih => simp [List.replicate_succ, ih]

theorem maskMatches_sound (row : List Int) (x : Int) (j : Nat)
    (h : j ∈ maskMatches row x) : j < row.length ∧ ∀ d : Int, row.getD j d = x := by
  rcases List.mem_filter.mp h with ⟨hr, hx⟩
  have hj : j < row.length := List.mem_range.mp hr
  have hx0 : row.getD j 0 = x := by simpa using hx
  refine ⟨hj, fun d => ?_⟩
  have hs : row.get? j = some (row.get ⟨j, hj⟩) := List.get?_eq_get hj
  have h1 : row.getD j 0 = row.get ⟨j, hj⟩ := by
    rw [List.getD_eq_get?, hs]; rfl
  have h2 : row.getD j d = row.get ⟨j, hj⟩ := by
    rw [List.getD_eq_get?, hs]; rfl
  rw [h2, ← h1, hx0]

theorem pyRowD_nonneg (rows : List (List Int)) (v : Int) (hv : 0 ≤ v) :
    pyRowD rows v = rows.getD v.toNat [] := by
  unfold pyRowD pyRow
  rw [if_pos hv]
  rw [List.getD_eq_get?]
  cases h : rows.get? v.toNat with
  | none => simp [h]
  | some r => simp [h]

/-- Shared helper: with a non-positive iteration budget the main loop body
never runs and both returned arrays are the untouched all-zero
allocations. -/
theorem decode_no_iters (F : NumFuns) (g : LdpcGraph) (llr : Nat → ℚ)
    (n_iters : Int) (h0 : n_iters.toNat = 0) :
    decodeIters F g llr n_iters = 0 ∧
    ldpc_bp_decode F g llr n_iters =
      (List.replicate g.n_vnodes 0, List.replicate g.n_vnodes 0) := by
  constructor
  · unfold decodeIters
    rw [h0]
    rfl
  · unfold ldpc_bp_decode
    rw [h0]
    show ((List.range g.n_vnodes).map (fun _ => (0 : Int)),
          (List.range g.n_vnodes).map (fun _ => (0 : Int))) =
        (List.replicate g.n_vnodes 0, List.replicate g.n_vnodes 0)
    rw [map_const_zero, List.length_range]

/-! ## The claims -/

/-- Claim C1: during the check-node update, the outgoing message written to
`cnode_msgs` at slot `(c, i)` equals `2 * atanh(P / tanh(m_i/2))`, where
`m_i` is the incoming variable-node message on edge `i` (read via
`cnode_adj` and `cnode_vnode_map`) and `P` is the product of `tanh(m_j/2)`
over all edges `j < cnode_deg c`, under the stated preconditions. -/
theorem claim_C1 (F : NumFuns) (g : LdpcGraph) (vmsgs cmsgs : Nat → ℚ) (c i : Nat)
    (hc : c < g.n_cnodes) (hi : i < g.cnode_deg c)
    (hdeg : ∀ c' < g.n_cnodes, g.cnode_deg c' ≤ g.max_cnode_deg)
    (hnz : F.tanh (vmsgIn g vmsgs c i / 2) ≠ 0)
    (hdom : -1 < msgProd F g vmsgs c / F.tanh (vmsgIn g vmsgs c i / 2) ∧
        msgProd F g vmsgs c / F.tanh (vmsgIn g vmsgs c i / 2) < 1) :
    cnodePhase F g vmsgs cmsgs (c * g.max_cnode_deg + i) =
      2 * F.atanh
        (((List.range (g.cnode_deg c)).map
            (fun j => F.tanh (vmsgIn g vmsgs c j / 2))).prod /
          F.tanh (vmsgIn g vmsgs c i / 2)) := by
  have h := cnodeFold_lookup F g vmsgs (List.range g.n_cnodes) cmsgs c i
    (List.mem_range.mpr hc) hi (fun c' hc' => hdeg c' (List.mem_range.mp hc'))
  show (List.range g.n_cnodes).foldl (cnodeStep F g vmsgs) cmsgs
      (c * g.max_cnode_deg + i) = _
  rw [h]
  unfold cMsg
  rw [msgProd_eq_prod]

theorem claim_C1_wit :
    cnodePhase Fid G1 (fun _ => 1) (fun _ => 0) (0 * G1.max_cnode_deg + 0) =
      2 * Fid.atanh
        (((List.range (G1.cnode_deg 0)).map
            (fun j => Fid.tanh (vmsgIn G1 (fun _ => 1) 0 j / 2))).prod /
          Fid.tanh (vmsgIn G1 (fun _ => 1) 0 0 / 2)) :=
  claim_C1 Fid G1 (fun _ => 1) (fun _ => 0) 0 0 (by decide) (by decide)
    (fun _ _ => Nat.le_refl 2) (by with_unfolding_all decide)
    (by with_unfolding_all decide)

/-- Counterexample to claim C2 as stated: the initial variable-node
messages written before the first iteration are the raw channel LLRs,
without clipping, so a channel LLR of `100` puts `100 > 38` into a live
slot of `vnode_msgs`. -/
theorem claim_C2_cex :
    0 < G2.vnode_deg 0 ∧
    (initState G2 (fun _ => 100)).vnode_msgs (0 * G2.max_vnode_deg + 0) = 100 ∧
    ¬ ((initState G2 (fun _ => 100)).vnode_msgs (0 * G2.max_vnode_deg + 0) ≤ MAX_POS_LLR) := by
  decide

/-- Claim C2 (amended): every outgoing variable-node message written by a
variable-node update phase lies in `[MIN_NEG_LLR, MAX_POS_LLR] =
[-38, 38]`, for any channel LLRs and any incoming state; the *initial*
messages, however, are the unclipped channel LLRs. -/
theorem claim_C2_amended (g : LdpcGraph) (llr : Nat → ℚ) (s : DecState) (v i : Nat)
    (hv : v < g.n_vnodes) (hi : i < g.vnode_deg v)
    (hdeg : ∀ v' < g.n_vnodes, g.vnode_deg v' ≤ g.max_vnode_deg) :
    MIN_NEG_LLR ≤ (vnodePhase g llr s).vnode_msgs (v * g.max_vnode_deg + i) ∧
    (vnodePhase g llr s).vnode_msgs (v * g.max_vnode_deg + i) ≤ MAX_POS_LLR := by
  have h := vnodeFold_msgs_lookup g llr (List.range g.n_vnodes) s v i
    (List.mem_range.mpr hv) hi (fun v' hv' => hdeg v' (List.mem_range.mp hv'))
  show MIN_NEG_LLR ≤ ((List.range g.n_vnodes).foldl (vnodeStep g llr) s).vnode_msgs
      (v * g.max_vnode_deg + i) ∧
    ((List.range g.n_vnodes).foldl (vnodeStep g llr) s).vnode_msgs
      (v * g.max_vnode_deg + i) ≤ MAX_POS_LLR
  rw [h]
  unfold vMsg
  exact limit_llr_bounds _

theorem claim_C2_wit :
    MIN_NEG_LLR ≤ (vnodePhase G2 (fun _ => 100) (initState G2 (fun _ => 100))).vnode_msgs
        (0 * G2.max_vnode_deg + 0) ∧
    (vnodePhase G2 (fun _ => 100) (initState G2 (fun _ => 100))).vnode_msgs
        (0 * G2.max_vnode_deg + 0) ≤ MAX_POS_LLR :=
  claim_C2_amended G2 (fun _ => 100) (initState G2 (fun _ => 100)) 0 0
    (by decide) (by decide) (fun _ _ => Nat.le_refl 1)

/-- Claim C3: the decoder stops iterating immediately, returning the
current state, exactly when at the end of an iteration every check node's
parity (XOR of the hard-decision bits over its live edges) is `0`; if some
parity is nonzero it continues into the remaining budget. -/
theorem claim_C3 (F : NumFuns) (g : LdpcGraph) (llr : Nat → ℚ) (k : Nat) (s : DecState) :
    (allParityOk g (iterStep F g llr s).dec_word = true ↔
      ∀ c < g.n_cnodes, cnodeParity g (iterStep F g llr s).dec_word c = 0) ∧
    (allParityOk g (iterStep F g llr s).dec_word = true →
      bpLoop F g llr (k + 1) s = (iterStep F g llr s, 1)) ∧
    (allParityOk g (iterStep F g llr s).dec_word = false →
      bpLoop F g llr (k + 1) s =
        ((bpLoop F g llr k (iterStep F g llr s)).1,
         (bpLoop F g llr k (iterStep F g llr s)).2 + 1)) := by
  refine ⟨?_, ?_, ?_⟩
  · simp [allParityOk, List.all_eq_true, List.mem_range]
  · intro h
    simp [bpLoop, h]
  · intro h
    simp [bpLoop, h]

theorem claim_C3_wit :
    bpLoop Fid G5 (fun _ => 1) 1 (initState G5 (fun _ => 1)) =
      (iterStep Fid G5 (fun _ => 1) (initState G5 (fun _ => 1)), 1) :=
  (claim_C3 Fid G5 (fun _ => 1) 0 (initState G5 (fun _ => 1))).2.1 (by decide)

/-- Claim C4: for a well-formed graph (every edge endpoint in range and
appearing exactly once in the partner's adjacency row — the hypotheses
below), following `vnode_cnode_map` from edge `(v, i)` and then back
through `cnode_adj` / `cnode_vnode_map` returns to the same edge: the two
cross-reference maps derived by `get_ldpc_code_params` are exact
inverses. -/
theorem claim_C4 (vadj cadj : List (List Int)) (v i : Nat) (c : Int) (j : Nat)
    (hc : (vadj.getD v []).getD i (-1) = c) (hc0 : 0 ≤ c)
    (hm1 : maskMatches (vadj.getD v []) c = [i])
    (hm2 : maskMatches (cadj.getD c.toNat []) ((v : Int)) = [j]) :
    vnode_cnode_map_entry cadj vadj v i = j ∧
    (cadj.getD c.toNat []).getD j (-1) = (v : Int) ∧
    cnode_vnode_map_entry vadj cadj c.toNat j = i := by
  have hrow : pyRowD cadj ((vadj.getD v []).getD i (-1)) = cadj.getD c.toNat [] := by
    rw [hc, pyRowD_nonneg cadj c hc0]
  have h1 : vnode_cnode_map_entry cadj vadj v i = j := by
    unfold vnode_cnode_map_entry
    rw [hrow, hm2]
    rfl
  have hj : j ∈ maskMatches (cadj.getD c.toNat []) ((v : Int)) := by
    rw [hm2]
    exact List.mem_singleton.mpr rfl
  have h2 := (maskMatches_sound _ _ _ hj).2 (-1)
  refine ⟨h1, h2, ?_⟩
  unfold cnode_vnode_map_entry
  rw [h2]
  have hv : pyRowD vadj ((v : Nat) : Int) = vadj.getD v [] := by
    rw [pyRowD_nonneg vadj _ (Int.natCast_nonneg v)]
    rfl
  rw [hv]
  have hct : ((c.toNat : Nat) : Int) = c := Int.toNat_of_nonneg hc0
  rw [hct, hm1]
  rfl

theorem claim_C4_wit :
    vnode_cnode_map_entry [[0, 1]] [[0], [0]] 1 0 = 1 ∧
    (([[0, 1]] : List (List Int)).getD (Int.toNat 0) []).getD 1 (-1) = ((1 : Nat) : Int) ∧
    cnode_vnode_map_entry [[0], [0]] [[0, 1]] (Int.toNat 0) 1 = 0 :=
  claim_C4 [[0], [0]] [[0, 1]] 1 0 0 1 (by decide) (by decide) (by decide) (by decide)

/-- Claim C5 is a code bug: the source allocates `out_llrs` with dtype
`int` (`np.zeros(n_vnodes, int)`), so the posterior LLR is truncated
toward zero before the comparison `out_llrs[v] > 0`.  For a posterior of
`1/2 > 0` the claim (and the docstring's float semantics) demand bit `0`,
but the code stores `int(1/2) = 0`, the test `0 > 0` fails, and the
decoded bit is `1`. -/
theorem claim_C5_eval :
    (ldpc_bp_decode Fid G5 (fun _ => 1/2) 1).1 = [1] ∧
    postLlr G5 (fun _ => 1/2) (fun _ => 0) 0 = 1/2 ∧
    (0 : ℚ) < 1/2 := by
  with_unfolding_all decide

/-- Claim C6 is the same code bug: the returned `out_llrs` are the
truncated integers, not the real posterior `llr + msg_sum`.  For channel
LLR `5/2` (posterior `5/2`, no incoming messages) the source returns `2 ≠
5/2`. -/
theorem claim_C6_eval :
    (ldpc_bp_decode Fid G5 (fun _ => 5/2) 1).2 = [2] ∧
    postLlr G5 (fun _ => 5/2) (fun _ => 0) 0 = 5/2 ∧
    ((5 : ℚ)/2 ≠ (2 : ℚ)) := by
  with_unfolding_all decide

/-- Claim C7 is a code bug, at exactly the input the claim names: with all
channel LLRs `0.0` on any graph with an edge (here `G1`, two degree-1
variable nodes and one degree-2 check node) the check-node update's
division at line 166 computes `0.0/0.0 = NaN` (numpy warns, does not
raise), the `NaN` poisons `msg_sum`, and line 187's store of the `NaN`
posterior into the `int`-dtype `out_llrs` array (allocated at line 134
against the docstring's declared float dtype) raises
`ValueError: cannot convert float NaN to integer` — so the decoder does
*not* always return a `(dec_word, out_llrs)` pair.  With the documented
float dtype the `NaN` would be stored silently and the claim would hold
(the loop is bounded by its budget, see `bpLoop_iters_le`). -/
theorem claim_C7_eval :
    fIsError (ldpc_bp_decode_fv Fid G1 (fun _ => FV.fin 0) 1) = true ∧
    errMsg (ldpc_bp_decode_fv Fid G1 (fun _ => FV.fin 0) 1) =
      "ValueError: cannot convert float NaN to integer" ∧
    fdiv (fmsgProd Fid G1 (fun _ => FV.fin 0) 0)
        (ftanh Fid (fdiv (fvmsgIn G1 (fun _ => FV.fin 0) 0 0) (FV.fin 2))) =
      FV.nan := by
  with_unfolding_all decide

/-- Counterexample to claim C8 as stated: `ldpc_bp_decode` performs no
input validation at all.  Called with the invalid budget `n_iters = 0`
(`< 1`) it does not reject with any error: it returns normally with the
all-zero outputs after zero iterations. -/
theorem claim_C8_cex :
    ldpc_bp_decode Fid G5 (fun _ => 1) 0 = ([0], [0]) ∧
    decodeIters Fid G5 (fun _ => 1) 0 = 0 := by
  decide

/-- Claim C8 (amended): `ldpc_bp_decode` does not validate its inputs and
no `InvalidDecodeInput` rejection exists; with `n_iters < 1` it simply
runs zero iterations and returns the all-zero `dec_word`/`out_llrs`
normally (a too-short `llr_vec` would raise a generic `IndexError` inside
the loop, and extra entries are silently ignored). -/
theorem claim_C8_amended (F : NumFuns) (g : LdpcGraph) (llr : Nat → ℚ)
    (n_iters : Int) (h : n_iters < 1) :
    decodeIters F g llr n_iters = 0 ∧
    ldpc_bp_decode F g llr n_iters =
      (List.replicate g.n_vnodes 0, List.replicate g.n_vnodes 0) :=
  decode_no_iters F g llr n_iters (Int.toNat_of_nonpos (by omega))

theorem claim_C8_wit :
    decodeIters Fid G5 (fun _ => 1) (-3) = 0 ∧
    ldpc_bp_decode Fid G5 (fun _ => 1) (-3) =
      (List.replicate G5.n_vnodes 0, List.replicate G5.n_vnodes 0) :=
  claim_C8_amended Fid G5 (fun _ => 1) (-3) (by decide)

/-- Counterexample to claim C9 as stated: `d0` is malformed (check node
1's line holds the out-of-range node index `0`), yet `get_ldpc_code_params`
does not fail — it returns a graph. -/
theorem claim_C9_cex :
    wellFormedDesc d0 = false ∧ isOkB (get_ldpc_code_params d0) = true := by
  decide

/-- Claim C9 (amended): `get_ldpc_code_params` performs no validation and
no `MalformedCodeDescription` error exists; malformed descriptions either
surface as generic Python/numpy failures or are silently accepted.  In
particular a node index `0` is converted to `-1`, stored as if it were the
padding sentinel, silently wraps around to the last row during the
cross-map search (Python negative indexing), and the full — corrupt —
graph `P0` is returned with no error. -/
theorem claim_C9_amended :
    wellFormedDesc d0 = false ∧
    get_ldpc_code_params d0 = Except.ok P0 ∧
    P0.cnode_adj_list.getD 2 0 = -1 ∧
    P0.cnode_vnode_map.getD 2 9 = 0 :=
  ⟨by decide, rfl, rfl, rfl⟩

/-- Claim C10: with `n_iters ≤ 0` the main loop body never executes and
the function returns, without error, the all-zero integer vectors
`dec_word` and `out_llrs` of length `n_vnodes`. -/
theorem claim_C10 (F : NumFuns) (g : LdpcGraph) (llr : Nat → ℚ)
    (n_iters : Int) (h : n_iters ≤ 0) :
    decodeIters F g llr n_iters = 0 ∧
    ldpc_bp_decode F g llr n_iters =
      (List.replicate g.n_vnodes 0, List.replicate g.n_vnodes 0) :=
  decode_no_iters F g llr n_iters (Int.toNat_of_nonpos h)

theorem claim_C10_wit :
    decodeIters Fid G2 (fun _ => 7) 0 = 0 ∧
    ldpc_bp_decode Fid G2 (fun _ => 7) 0 =
      (List.replicate G2.n_vnodes 0, List.replicate G2.n_vnodes 0) :=
  claim_C10 Fid G2 (fun _ => 7) 0 (by decide)
